import Mathlib

/-!
# Verification of the JSON facade of the HCL JSON adapter

This development embeds, in Lean 4, the public entry points of the JSON
profile of the HCL configuration language (`json/public.go`): `Parse`,
`ParseWithStartPos`, `ParseExpression`, `ParseExpressionWithStartPos` and
`ParseFile`, together with the data model they expose (`hcl.Pos`,
`hcl.Range`, `hcl.Diagnostic`, `hcl.File`, the JSON node tree).

The scanner/parser layer (`parseFileContent`, `parseExpression`, the node
types) is not part of the provided source; those definitions are modelled
from the specification document and are marked as such.  The theorems about
the facade hold for every output of that layer, so they do not depend on
its internals; the modelled layer serves to make the hypotheses of those
theorems satisfiable on concrete inputs.

File IO (`os.Open`, `io.ReadAll`, `File.Close`) is modelled by a record of
the outcomes of the three fallible operations, so that the control flow of
`ParseFile` (including its deferred close handler, which appends to the
named return value `diags` on every post-open return path) can be embedded
as a pure function.
-/

namespace HclJson

/-- `hcl.Pos`: a byte offset together with a 1-based line and column. -/
structure Pos where
  Byte : Nat
  Line : Nat
  Column : Nat
deriving DecidableEq, Repr

/-- `hcl.Range`: a half-open span of positions in a named source file. -/
structure Range where
  Filename : String
  Start : Pos
  End : Pos
deriving DecidableEq, Repr

/-- `hcl.DiagnosticSeverity`: only the error and warning levels appear here. -/
inductive DiagnosticSeverity where
  | DiagError
  | DiagWarning
deriving DecidableEq, Repr

/-- `hcl.Diagnostic`: severity, summary, detail, optional subject and
context ranges.  The `Subject` and `Context` pointers of the Go struct are
modelled as `Option Range` (`none` = nil pointer). -/
structure Diagnostic where
  Severity : DiagnosticSeverity
  Summary : String
  Detail : String
  Subject : Option Range
  Context : Option Range
deriving DecidableEq, Repr

/-- Modelled from the spec: the closed variant set of JSON syntax nodes
(`ObjectNode`, `ArrayNode`, `StringNode`, `NumberNode`, `BoolNode`,
`NullNode`).  Every node carries its `SrcRange`; object and array nodes
additionally carry an `OpenRange` covering just the opening delimiter.
Numbers retain their full literal text (arbitrary-precision; conversion is
an evaluation-time concern and never happens in the facade).  An `Attr`
pairs a key (decoded text plus its own range) with a value node. -/
inductive node where
  | objectVal (Attrs : List (String × node × Range)) (SrcRange : Range) (OpenRange : Range)
  | arrayVal (Values : List node) (SrcRange : Range) (OpenRange : Range)
  | stringVal (Value : String) (SrcRange : Range)
  | numberVal (Value : String) (SrcRange : Range)
  | booleanVal (Value : Bool) (SrcRange : Range)
  | nullVal (SrcRange : Range)

/-- Modelled from the spec: `StartRange()` of a node, the anchor used for
diagnostics.  For object and array nodes it is the opening delimiter's
range; for leaf nodes it is the node's own source range. -/
def node.StartRange : node → Range
  | .objectVal _ _ openRange => openRange
  | .arrayVal _ _ openRange => openRange
  | .stringVal _ srcRange => srcRange
  | .numberVal _ srcRange => srcRange
  | .booleanVal _ srcRange => srcRange
  | .nullVal srcRange => srcRange

/-- Modelled from the spec: token kinds — delimiters, string, number, bool,
null, end-of-input, and an invalid-token kind for lexical defects.  The
string kind carries the decoded text, the number kind the raw literal
text. -/
inductive tokenType where
  | tokenBraceO
  | tokenBraceC
  | tokenBrackO
  | tokenBrackC
  | tokenComma
  | tokenColon
  | tokenString (text : String)
  | tokenNumber (text : String)
  | tokenBool (value : Bool)
  | tokenNull
  | tokenEOF
  | tokenInvalid
deriving DecidableEq, Repr

/-- Modelled from the spec: a token is a kind plus its source range. -/
structure Token where
  ttype : tokenType
  range : Range
deriving DecidableEq, Repr

/-- Modelled from the spec: advancing a position over one byte.  A newline
starts a new line; a UTF-8 continuation byte (0x80–0xBF) advances the byte
offset but not the column, so columns count characters. -/
def advancePos (p : Pos) (b : Nat) : Pos :=
  if b = 10 then { Byte := p.Byte + 1, Line := p.Line + 1, Column := 1 }
  else if 128 ≤ b ∧ b < 192 then { p with Byte := p.Byte + 1 }
  else { p with Byte := p.Byte + 1, Column := p.Column + 1 }

/-- Advance a position over a list of bytes. -/
def advancePosList (p : Pos) (bs : List Nat) : Pos :=
  bs.foldl advancePos p

/-- Interpret a run of bytes as text, one byte per character. -/
def bytesText (bs : List Nat) : String :=
  String.mk (bs.map (fun b => Char.ofNat b))

/-- Value of a hexadecimal digit byte, if it is one. -/
def hexVal (b : Nat) : Option Nat :=
  if 48 ≤ b ∧ b ≤ 57 then some (b - 48)
  else if 97 ≤ b ∧ b ≤ 102 then some (b - 87)
  else if 65 ≤ b ∧ b ≤ 70 then some (b - 55)
  else none

/-- Whitespace bytes between tokens: space, tab, carriage return, newline. -/
def isWsByte (b : Nat) : Bool :=
  b == 32 || b == 9 || b == 13 || b == 10

/-- Bytes that may continue a number literal (optional sign, integer part,
optional fraction, optional exponent — recognized by grammar shape only,
the raw text is kept). -/
def isNumberByte (b : Nat) : Bool :=
  (48 ≤ b && b ≤ 57) || b == 43 || b == 45 || b == 46 || b == 101 || b == 69

/-- Alphabetic bytes, used to take a keyword run. -/
def isAlphaByte (b : Nat) : Bool :=
  (65 ≤ b && b ≤ 90) || (97 ≤ b && b ≤ 122)

/-- Modelled from the spec: scanning the body of a string literal after its
opening quote.  Standard escapes are decoded (including `\\uXXXX` code
units) while positions keep tracking the raw bytes; an unterminated
literal or a malformed escape emits one error and the scan continues.
Returns the decoded text, the unconsumed bytes, the position just past the
closing quote, and the diagnostics. -/
def scanStringBody (fn : String) :
    Nat → List Nat → Pos → String → String × List Nat × Pos × List Diagnostic
  | 0, bs, p, acc => (acc, bs, p, [])
  | _ + 1, [], p, acc =>
    (acc, [], p,
      [{ Severity := .DiagError, Summary := "Unterminated string",
         Detail := "The string literal is not closed before the end of the file.",
         Subject := some ⟨fn, p, p⟩, Context := none }])
  | fuel + 1, b :: bs, p, acc =>
    if b = 34 then (acc, bs, advancePos p b, [])
    else if b = 92 then
      match bs with
      | [] =>
        (acc, [], advancePos p b,
          [{ Severity := .DiagError, Summary := "Unterminated string",
             Detail := "The string literal is not closed before the end of the file.",
             Subject := some ⟨fn, p, advancePos p b⟩, Context := none }])
      | e :: bs' =>
        let p' := advancePos (advancePos p b) e
        if e = 110 then scanStringBody fn fuel bs' p' (acc.push (Char.ofNat 10))
        else if e = 116 then scanStringBody fn fuel bs' p' (acc.push (Char.ofNat 9))
        else if e = 114 then scanStringBody fn fuel bs' p' (acc.push (Char.ofNat 13))
        else if e = 98 then scanStringBody fn fuel bs' p' (acc.push (Char.ofNat 8))
        else if e = 102 then scanStringBody fn fuel bs' p' (acc.push (Char.ofNat 12))
        else if e = 34 ∨ e = 92 ∨ e = 47 then
          scanStringBody fn fuel bs' p' (acc.push (Char.ofNat e))
        else if e = 117 then
          match bs' with
          | h1 :: h2 :: h3 :: h4 :: bs'' =>
            match hexVal h1, hexVal h2, hexVal h3, hexVal h4 with
            | some a, some b2, some c, some d =>
              scanStringBody fn fuel bs'' (advancePosList p' [h1, h2, h3, h4])
                (acc.push (Char.ofNat (a * 4096 + b2 * 256 + c * 16 + d)))
            | _, _, _, _ =>
              let (s, r, pe, ds) := scanStringBody fn fuel bs' p' acc
              (s, r, pe,
                { Severity := .DiagError, Summary := "Invalid escape sequence",
                  Detail := "The \\u escape must be followed by four hexadecimal digits.",
                  Subject := some ⟨fn, p, p'⟩, Context := none } :: ds)
          | _ =>
            let (s, r, pe, ds) := scanStringBody fn fuel bs' p' acc
            (s, r, pe,
              { Severity := .DiagError, Summary := "Invalid escape sequence",
                Detail := "The \\u escape must be followed by four hexadecimal digits.",
                Subject := some ⟨fn, p, p'⟩, Context := none } :: ds)
        else
          let (s, r, pe, ds) := scanStringBody fn fuel bs' p' (acc.push (Char.ofNat e))
          (s, r, pe,
            { Severity := .DiagError, Summary := "Invalid escape sequence",
              Detail := "The escape sequence is not recognized.",
              Subject := some ⟨fn, p, p'⟩, Context := none } :: ds)
    else scanStringBody fn fuel bs (advancePos p b) (acc.push (Char.ofNat b))

/-- Modelled from the spec: the scanner loop.  Whitespace is skipped,
delimiters become single-byte tokens, strings are decoded by
`scanStringBody`, numbers are taken by grammar shape as raw text, and the
keywords `true` / `false` / `null` become their tokens.  Any other byte or
unknown keyword emits one error diagnostic and an invalid token, and the
scan resynchronizes and continues, so one document may report several
independent lexical defects. -/
def scanAux (fn : String) : Nat → List Nat → Pos → List Token × List Diagnostic
  | 0, _, p => ([{ ttype := .tokenEOF, range := ⟨fn, p, p⟩ }], [])
  | _ + 1, [], p => ([{ ttype := .tokenEOF, range := ⟨fn, p, p⟩ }], [])
  | fuel + 1, b :: bs, p =>
    if isWsByte b then scanAux fn fuel bs (advancePos p b)
    else if b = 123 then
      let p' := advancePos p b
      let (ts, ds) := scanAux fn fuel bs p'
      ({ ttype := .tokenBraceO, range := ⟨fn, p, p'⟩ } :: ts, ds)
    else if b = 125 then
      let p' := advancePos p b
      let (ts, ds) := scanAux fn fuel bs p'
      ({ ttype := .tokenBraceC, range := ⟨fn, p, p'⟩ } :: ts, ds)
    else if b = 91 then
      let p' := advancePos p b
      let (ts, ds) := scanAux fn fuel bs p'
      ({ ttype := .tokenBrackO, range := ⟨fn, p, p'⟩ } :: ts, ds)
    else if b = 93 then
      let p' := advancePos p b
      let (ts, ds) := scanAux fn fuel bs p'
      ({ ttype := .tokenBrackC, range := ⟨fn, p, p'⟩ } :: ts, ds)
    else if b = 44 then
      let p' := advancePos p b
      let (ts, ds) := scanAux fn fuel bs p'
      ({ ttype := .tokenComma, range := ⟨fn, p, p'⟩ } :: ts, ds)
    else if b = 58 then
      let p' := advancePos p b
      let (ts, ds) := scanAux fn fuel bs p'
      ({ ttype := .tokenColon, range := ⟨fn, p, p'⟩ } :: ts, ds)
    else if b = 34 then
      let (text, rest, pe, ds1) := scanStringBody fn fuel bs (advancePos p b) ""
      let (ts, ds2) := scanAux fn fuel rest pe
      ({ ttype := .tokenString text, range := ⟨fn, p, pe⟩ } :: ts, ds1 ++ ds2)
    else if (48 ≤ b ∧ b ≤ 57) ∨ b = 45 then
      let run := bs.takeWhile isNumberByte
      let rest := bs.dropWhile isNumberByte
      let p' := advancePosList p (b :: run)
      let (ts, ds) := scanAux fn fuel rest p'
      ({ ttype := .tokenNumber (bytesText (b :: run)), range := ⟨fn, p, p'⟩ } :: ts, ds)
    else if isAlphaByte b then
      let run := bs.takeWhile isAlphaByte
      let rest := bs.dropWhile isAlphaByte
      let p' := advancePosList p (b :: run)
      let word := bytesText (b :: run)
      let (ts, ds) := scanAux fn fuel rest p'
      if word = "true" then
        ({ ttype := .tokenBool true, range := ⟨fn, p, p'⟩ } :: ts, ds)
      else if word = "false" then
        ({ ttype := .tokenBool false, range := ⟨fn, p, p'⟩ } :: ts, ds)
      else if word = "null" then
        ({ ttype := .tokenNull, range := ⟨fn, p, p'⟩ } :: ts, ds)
      else
        ({ ttype := .tokenInvalid, range := ⟨fn, p, p'⟩ } :: ts,
          { Severity := .DiagError, Summary := "Invalid JSON keyword",
            Detail := "Only the keywords true, false and null are allowed in JSON.",
            Subject := some ⟨fn, p, p'⟩, Context := none } :: ds)
    else
      let p' := advancePos p b
      let (ts, ds) := scanAux fn fuel bs p'
      ({ ttype := .tokenInvalid, range := ⟨fn, p, p'⟩ } :: ts,
        { Severity := .DiagError, Summary := "Invalid character",
          Detail := "This character is not allowed in a JSON document.",
          Subject := some ⟨fn, p, p'⟩, Context := none } :: ds)

/-- Modelled from the spec: `Scan(bytes, startPosition)` — the token
sequence of a byte buffer, starting from the given position.  A leading
byte-order mark is recognized as insignificant: it is skipped, advancing
only the byte offset. -/
def scan (src : List Nat) (fn : String) (start : Pos) : List Token × List Diagnostic :=
  match src with
  | 239 :: 187 :: 191 :: rest =>
    scanAux fn (rest.length + 1) rest { start with Byte := start.Byte + 3 }
  | _ => scanAux fn (src.length + 1) src start

/-- A zero-length range at a position, used to anchor missing-token
diagnostics. -/
def zeroRange (fn : String) (p : Pos) : Range := ⟨fn, p, p⟩

mutual

/-- Modelled from the spec: the recursive-descent parser for one value
(`value := object | array | string | number | bool | null`).  Structural
defects emit a diagnostic anchored to the offending token and parsing
continues with a best-effort node; it never aborts.  Returns the node, the
unconsumed tokens, and the diagnostics. -/
def parseValue (fn : String) (fuel : Nat) (toks : List Token) :
    node × List Token × List Diagnostic :=
  match fuel, toks with
  | 0, ts => (node.nullVal (zeroRange fn ⟨0, 1, 1⟩), ts, [])
  | _ + 1, [] =>
    (node.nullVal (zeroRange fn ⟨0, 1, 1⟩), [],
      [{ Severity := .DiagError, Summary := "Missing JSON value",
         Detail := "A JSON value was expected here.",
         Subject := some (zeroRange fn ⟨0, 1, 1⟩), Context := none }])
  | fuel + 1, t :: rest =>
    match t.ttype with
    | .tokenBraceO =>
      let (attrs, rest', endPos, ds) := parseObjectBody fn fuel rest t.range.End
      (node.objectVal attrs ⟨fn, t.range.Start, endPos⟩ t.range, rest', ds)
    | .tokenBrackO =>
      let (vals, rest', endPos, ds) := parseArrayBody fn fuel rest t.range.End
      (node.arrayVal vals ⟨fn, t.range.Start, endPos⟩ t.range, rest', ds)
    | .tokenString s => (node.stringVal s t.range, rest, [])
    | .tokenNumber s2 => (node.numberVal s2 t.range, rest, [])
    | .tokenBool v => (node.booleanVal v t.range, rest, [])
    | .tokenNull => (node.nullVal t.range, rest, [])
    | _ =>
      (node.nullVal t.range, rest,
        [{ Severity := .DiagError, Summary := "Invalid start of value",
           Detail := "A JSON value must start with a brace, bracket, quote, digit or keyword.",
           Subject := some t.range, Context := none }])

/-- Modelled from the spec: the members of an object after its opening
brace (`(attr (',' attr)*)? '}'`).  Duplicate keys are preserved in parse
order.  On a structural defect the parser emits one diagnostic and
recovers locally, skipping to the next member or the closer, so one
malformed member does not swallow the rest of the document.  Returns the
attributes, the unconsumed tokens, the position just past the closing
brace, and the diagnostics. -/
def parseObjectBody (fn : String) (fuel : Nat) (toks : List Token) (p : Pos) :
    List (String × node × Range) × List Token × Pos × List Diagnostic :=
  match fuel, toks with
  | 0, ts => ([], ts, p, [])
  | _ + 1, [] =>
    ([], [], p,
      [{ Severity := .DiagError, Summary := "Missing closing brace",
         Detail := "The object is not closed before the end of the file.",
         Subject := some (zeroRange fn p), Context := none }])
  | fuel + 1, t :: rest =>
    match t.ttype with
    | .tokenBraceC => ([], rest, t.range.End, [])
    | .tokenEOF =>
      ([], t :: rest, p,
        [{ Severity := .DiagError, Summary := "Missing closing brace",
           Detail := "The object is not closed before the end of the file.",
           Subject := some (zeroRange fn p), Context := none }])
    | .tokenString key =>
      match rest with
      | [] =>
        ([], [], p,
          [{ Severity := .DiagError, Summary := "Missing property value",
             Detail := "A colon and a value must follow each property name.",
             Subject := some t.range, Context := none }])
      | c :: rest2 =>
        if c.ttype = .tokenColon then
          let (v, rest3, ds1) := parseValue fn fuel rest2
          match rest3 with
          | [] =>
            ([(key, v, t.range)], [], p,
              ds1 ++
                [{ Severity := .DiagError, Summary := "Missing closing brace",
                   Detail := "The object is not closed before the end of the file.",
                   Subject := some (zeroRange fn p), Context := none }])
          | s :: rest4 =>
            if s.ttype = .tokenComma then
              let (attrs, rest5, pe, ds2) := parseObjectBody fn fuel rest4 s.range.End
              ((key, v, t.range) :: attrs, rest5, pe, ds1 ++ ds2)
            else if s.ttype = .tokenBraceC then
              ([(key, v, t.range)], rest4, s.range.End, ds1)
            else
              let (attrs, rest5, pe, ds2) := parseObjectBody fn fuel rest4 s.range.End
              ((key, v, t.range) :: attrs, rest5, pe,
                ds1 ++
                  ({ Severity := .DiagError, Summary := "Missing attribute separator",
                     Detail := "A comma must separate the properties of an object.",
                     Subject := some s.range, Context := none } :: ds2))
        else
          let (attrs, rest', pe, ds) := parseObjectBody fn fuel rest p
          (attrs, rest', pe,
            { Severity := .DiagError, Summary := "Missing property colon",
              Detail := "A colon must follow each property name.",
              Subject := some c.range, Context := none } :: ds)
    | _ =>
      let (attrs, rest', pe, ds) := parseObjectBody fn fuel rest p
      (attrs, rest', pe,
        { Severity := .DiagError, Summary := "Invalid object member",
          Detail := "Each member of an object must start with a property name string.",
          Subject := some t.range, Context := none } :: ds)

/-- Modelled from the spec: the elements of an array after its opening
bracket (`(value (',' value)*)? ']'`), with the same local recovery as
objects.  Returns the elements, the unconsumed tokens, the position just
past the closing bracket, and the diagnostics. -/
def parseArrayBody (fn : String) (fuel : Nat) (toks : List Token) (p : Pos) :
    List node × List Token × Pos × List Diagnostic :=
  match fuel, toks with
  | 0, ts => ([], ts, p, [])
  | _ + 1, [] =>
    ([], [], p,
      [{ Severity := .DiagError, Summary := "Missing closing bracket",
         Detail := "The array is not closed before the end of the file.",
         Subject := some (zeroRange fn p), Context := none }])
  | fuel + 1, t :: rest =>
    match t.ttype with
    | .tokenBrackC => ([], rest, t.range.End, [])
    | .tokenEOF =>
      ([], t :: rest, p,
        [{ Severity := .DiagError, Summary := "Missing closing bracket",
           Detail := "The array is not closed before the end of the file.",
           Subject := some (zeroRange fn p), Context := none }])
    | _ =>
      let (v, rest2, ds1) := parseValue fn fuel (t :: rest)
      match rest2 with
      | [] =>
        ([v], [], p,
          ds1 ++
            [{ Severity := .DiagError, Summary := "Missing closing bracket",
               Detail := "The array is not closed before the end of the file.",
               Subject := some (zeroRange fn p), Context := none }])
      | s :: rest3 =>
        if s.ttype = .tokenComma then
          let (vs, rest4, pe, ds2) := parseArrayBody fn fuel rest3 s.range.End
          (v :: vs, rest4, pe, ds1 ++ ds2)
        else if s.ttype = .tokenBrackC then
          ([v], rest3, s.range.End, ds1)
        else
          let (vs, rest4, pe, ds2) := parseArrayBody fn fuel rest3 s.range.End
          (v :: vs, rest4, pe,
            ds1 ++
              ({ Severity := .DiagError, Summary := "Missing element separator",
                 Detail := "A comma must separate the elements of an array.",
                 Subject := some s.range, Context := none } :: ds2))

end

/-- Modelled from the spec: `parseFileContent(buf, filename, start)` — scan
the buffer from the start position and parse one root value, returning the
best-effort root node together with the full ordered diagnostics list. -/
def parseFileContent (src : List Nat) (filename : String) (start : Pos) :
    node × List Diagnostic :=
  let (toks, scanDiags) := scan src filename start
  let (root, _, parseDiags) := parseValue filename (toks.length + 1) toks
  (root, scanDiags ++ parseDiags)

/-- Modelled from the spec: the standalone-expression parse — exactly one
value, with any unconsumed trailing bytes diagnosed without aborting. -/
def parseExpression (src : List Nat) (filename : String) (start : Pos) :
    node × List Diagnostic :=
  let (toks, scanDiags) := scan src filename start
  let (root, rest, parseDiags) := parseValue filename (toks.length + 1) toks
  let trailingDiags : List Diagnostic :=
    match rest with
    | [] => []
    | t :: _ =>
      if t.ttype = .tokenEOF then []
      else
        [{ Severity := .DiagError, Summary := "Extraneous data after value",
           Detail := "Extra characters appear after the JSON value.",
           Subject := some t.range, Context := none }]
  (root, scanDiags ++ parseDiags ++ trailingDiags)

/-- The JSON `body`: the adapter that implements the host's schema-driven
content-extraction contract over a root node (`json/body.go`'s `body`
struct; only the wrapped node matters for the facade). -/
structure body where
  val : node

/-- The JSON `navigation` index: position → enclosing node lookup over the
root node. -/
structure navigation where
  root : node

/-- `hcl.File`: the result of a whole-document parse — the root wrapped as
a `Body`, the raw source bytes, and the navigation index. -/
structure File where
  Body : body
  Bytes : List Nat
  Nav : navigation

/-- The JSON `expression`: a node wrapped as an evaluable `hcl.Expression`. -/
structure expression where
  src : node

/-- The type test done by the `switch rootNode.(type)` in
`ParseWithStartPos`: is the root an `objectVal` or an `arrayVal`? -/
def rootIsObjectOrArray : node → Bool
  | .objectVal .. => true
  | .arrayVal .. => true
  | _ => false

/-- The synthetic zero-length range at byte offset 0, line 1, column 1
that `ParseWithStartPos` gives the placeholder object substituted for an
invalid root (`fakePos` / `fakeRange` in `public.go`). -/
def fakeRootRange (filename : String) : Range :=
  { Filename := filename
    Start := { Byte := 0, Line := 1, Column := 1 }
    End := { Byte := 0, Line := 1, Column := 1 } }

/-- The diagnostic `ParseWithStartPos` appends when the root value is
neither an object nor an array; its subject is the start range of the
offending root node. -/
def rootErrorDiag (root : node) : Diagnostic :=
  { Severity := .DiagError
    Summary := "Root value must be object"
    Detail := "The root value in a JSON-based configuration must be either a JSON object or a JSON array of objects."
    Subject := some root.StartRange
    Context := none }

/-- `ParseWithStartPos(src, filename, start)`: parse the buffer, enforce
the root-must-be-object-or-array constraint (substituting an empty
placeholder object at a synthetic range after diagnosing a violation), and
wrap the result as an `hcl.File`. -/
def ParseWithStartPos (src : List Nat) (filename : String) (start : Pos) :
    File × List Diagnostic :=
  let r := parseFileContent src filename start
  let rootNode := r.1
  let diags := r.2
  if rootIsObjectOrArray rootNode then
    ({ Body := ⟨rootNode⟩, Bytes := src, Nav := ⟨rootNode⟩ }, diags)
  else
    let diags := diags ++ [rootErrorDiag rootNode]
    let root2 : node := node.objectVal [] (fakeRootRange filename) (fakeRootRange filename)
    ({ Body := ⟨root2⟩, Bytes := src, Nav := ⟨root2⟩ }, diags)

/-- `Parse(src, filename)`: `ParseWithStartPos` from byte 0, line 1,
column 1. -/
def Parse (src : List Nat) (filename : String) : File × List Diagnostic :=
  ParseWithStartPos src filename { Byte := 0, Line := 1, Column := 1 }

/-- `ParseExpressionWithStartPos(src, filename, start)`: parse a
standalone JSON expression and wrap the node as an `expression`. -/
def ParseExpressionWithStartPos (src : List Nat) (filename : String) (start : Pos) :
    expression × List Diagnostic :=
  let r := parseExpression src filename start
  (⟨r.1⟩, r.2)

/-- `ParseExpression(src, filename)`: `ParseExpressionWithStartPos` from
byte 0, line 1, column 1. -/
def ParseExpression (src : List Nat) (filename : String) : expression × List Diagnostic :=
  ParseExpressionWithStartPos src filename { Byte := 0, Line := 1, Column := 1 }

/-- The outcomes of the three fallible file-system operations `ParseFile`
performs: does `os.Open` fail, what does `io.ReadAll` return (`none` =
read error), and does the deferred `Close` fail.  This models the IO
environment so `ParseFile` embeds as a pure function. -/
structure osFile where
  openFails : Bool
  readResult : Option (List Nat)
  closeFails : Bool

/-- The diagnostic `ParseFile` returns when `os.Open` fails: an error with
no subject and no context range. -/
def openErrorDiag (filename : String) : Diagnostic :=
  { Severity := .DiagError
    Summary := "Failed to open file"
    Detail := s!"The file \"{filename}\" could not be opened."
    Subject := none
    Context := none }

/-- The diagnostic `ParseFile` returns when `io.ReadAll` fails after a
successful open. -/
def readErrorDiag (filename : String) : Diagnostic :=
  { Severity := .DiagError
    Summary := "Failed to read file"
    Detail := s!"The file \"{filename}\" was opened, but an error occured while reading it."
    Subject := none
    Context := none }

/-- The warning the deferred close handler of `ParseFile` appends when
`Close` fails. -/
def closeWarningDiag (filename : String) : Diagnostic :=
  { Severity := .DiagWarning
    Summary := "Failed to close file"
    Detail := s!"The file \"{filename}\" was opened, but an error occured while closing it."
    Subject := none
    Context := none }

/-- `ParseFile(filename)` over an IO environment `fs`.  An open failure
returns immediately with one error diagnostic.  After a successful open, a
deferred handler appends a close-failure warning to the named return value
`diags` on every return path: both when the read fails (nil file, read
error diagnostic) and when the read bytes are handed to `Parse`. -/
def ParseFile (fs : osFile) (filename : String) : Option File × List Diagnostic :=
  if fs.openFails then
    (none, [openErrorDiag filename])
  else
    let deferredClose : List Diagnostic :=
      if fs.closeFails then [closeWarningDiag filename] else []
    match fs.readResult with
    | none => (none, [readErrorDiag filename] ++ deferredClose)
    | some src =>
      let r := Parse src filename
      (some r.1, r.2 ++ deferredClose)

/-! ## Theorems about the facade -/

/-- C1: for every input byte buffer, filename and start position, if the
root node produced by parsing the file content is neither an object nor an
array, then `ParseWithStartPos` appends exactly one error diagnostic with
summary "Root value must be object" to the parse diagnostics, and the
returned `File`'s `Body` wraps an empty object (no attributes) whose
source range (and open range) is the synthetic zero-length range. -/
theorem parseWithStartPos_root_constraint (src : List Nat) (filename : String) (start : Pos)
    (h : rootIsObjectOrArray (parseFileContent src filename start).1 = false) :
    ParseWithStartPos src filename start =
      ({ Body := ⟨node.objectVal [] (fakeRootRange filename) (fakeRootRange filename)⟩,
         Bytes := src,
         Nav := ⟨node.objectVal [] (fakeRootRange filename) (fakeRootRange filename)⟩ },
        (parseFileContent src filename start).2 ++
          [rootErrorDiag (parseFileContent src filename start).1]) ∧
      (rootErrorDiag (parseFileContent src filename start).1).Severity = .DiagError ∧
      (rootErrorDiag (parseFileContent src filename start).1).Summary =
        "Root value must be object" ∧
      (fakeRootRange filename).Start = (fakeRootRange filename).End := by
  refine ⟨?_, rfl, rfl, rfl⟩
  simp [ParseWithStartPos, h]

/-- Witness for C1: the buffer `true` parses to a boolean root, so the
facade substitutes the placeholder and appends the root-constraint
error. -/
theorem parseWithStartPos_root_constraint_witness :
    ParseWithStartPos [116, 114, 117, 101] "c1.json" ⟨0, 1, 1⟩ =
      ({ Body := ⟨node.objectVal [] (fakeRootRange "c1.json") (fakeRootRange "c1.json")⟩,
         Bytes := [116, 114, 117, 101],
         Nav := ⟨node.objectVal [] (fakeRootRange "c1.json") (fakeRootRange "c1.json")⟩ },
        (parseFileContent [116, 114, 117, 101] "c1.json" ⟨0, 1, 1⟩).2 ++
          [rootErrorDiag (parseFileContent [116, 114, 117, 101] "c1.json" ⟨0, 1, 1⟩).1]) :=
  (parseWithStartPos_root_constraint [116, 114, 117, 101] "c1.json" ⟨0, 1, 1⟩ (by decide)).1

/-- C2: for every input whose parsed root node is an object or an array,
`ParseWithStartPos` appends no root-constraint diagnostic — the
diagnostics returned are exactly those produced by parsing the file
content — and the returned `File`'s `Body` wraps that root node
unchanged. -/
theorem parseWithStartPos_root_ok (src : List Nat) (filename : String) (start : Pos)
    (h : rootIsObjectOrArray (parseFileContent src filename start).1 = true) :
    ParseWithStartPos src filename start =
      ({ Body := ⟨(parseFileContent src filename start).1⟩,
         Bytes := src,
         Nav := ⟨(parseFileContent src filename start).1⟩ },
        (parseFileContent src filename start).2) := by
  simp [ParseWithStartPos, h]

/-- Witness for C2: the buffer `{}` parses to an object root, which is
passed through unchanged with exactly the parse diagnostics. -/
theorem parseWithStartPos_root_ok_witness :
    ParseWithStartPos [123, 125] "c2.json" ⟨0, 1, 1⟩ =
      ({ Body := ⟨(parseFileContent [123, 125] "c2.json" ⟨0, 1, 1⟩).1⟩,
         Bytes := [123, 125],
         Nav := ⟨(parseFileContent [123, 125] "c2.json" ⟨0, 1, 1⟩).1⟩ },
        (parseFileContent [123, 125] "c2.json" ⟨0, 1, 1⟩).2) :=
  parseWithStartPos_root_ok [123, 125] "c2.json" ⟨0, 1, 1⟩ (by decide)

/-- C3: for every input byte buffer, filename and start position,
`ParseWithStartPos` (a total function — it never aborts) returns a `File`
whose `Bytes` field is exactly the input buffer and whose `Nav` field
wraps the same root node the `Body` wraps, together with the complete
diagnostics list: the parse diagnostics, either unchanged or extended by
the single root-constraint diagnostic. -/
theorem parseWithStartPos_total (src : List Nat) (filename : String) (start : Pos) :
    (ParseWithStartPos src filename start).1.Bytes = src ∧
    (ParseWithStartPos src filename start).1.Nav.root =
      (ParseWithStartPos src filename start).1.Body.val ∧
    ((ParseWithStartPos src filename start).2 = (parseFileContent src filename start).2 ∨
      (ParseWithStartPos src filename start).2 =
        (parseFileContent src filename start).2 ++
          [rootErrorDiag (parseFileContent src filename start).1]) := by
  by_cases h : rootIsObjectOrArray (parseFileContent src filename start).1 = true
  · exact ⟨by simp [ParseWithStartPos, h], by simp [ParseWithStartPos, h],
      Or.inl (by simp [ParseWithStartPos, h])⟩
  · rw [Bool.not_eq_true] at h
    exact ⟨by simp [ParseWithStartPos, h], by simp [ParseWithStartPos, h],
      Or.inr (by simp [ParseWithStartPos, h])⟩

/-- C4: `Parse` is `ParseWithStartPos` at byte offset 0, line 1, column 1,
and `ParseExpression` is `ParseExpressionWithStartPos` at that same
position. -/
theorem parse_defaults_start_pos (src : List Nat) (filename : String) :
    Parse src filename =
      ParseWithStartPos src filename { Byte := 0, Line := 1, Column := 1 } ∧
    ParseExpression src filename =
      ParseExpressionWithStartPos src filename { Byte := 0, Line := 1, Column := 1 } :=
  ⟨rfl, rfl⟩

/-- C8: when the root-constraint error fires, the substituted placeholder
object's source range and open range are the zero-length range at byte
offset 0, line 1, column 1 of the given filename — the statement does not
depend on `start`, so the caller-supplied start position is ignored in the
placeholder's synthetic range. -/
theorem parseWithStartPos_placeholder_ignores_start (src : List Nat) (filename : String)
    (start : Pos) (h : rootIsObjectOrArray (parseFileContent src filename start).1 = false) :
    (ParseWithStartPos src filename start).1.Body.val =
      node.objectVal [] (fakeRootRange filename) (fakeRootRange filename) ∧
    fakeRootRange filename =
      { Filename := filename
        Start := { Byte := 0, Line := 1, Column := 1 }
        End := { Byte := 0, Line := 1, Column := 1 } } := by
  refine ⟨?_, rfl⟩
  simp [ParseWithStartPos, h]

/-- Witness for C8: parsing `true` from the caller-supplied start position
byte 10, line 3, column 5 still anchors the placeholder at byte 0, line 1,
column 1. -/
theorem parseWithStartPos_placeholder_ignores_start_witness :
    (ParseWithStartPos [116, 114, 117, 101] "c8.json" ⟨10, 3, 5⟩).1.Body.val =
      node.objectVal [] (fakeRootRange "c8.json") (fakeRootRange "c8.json") :=
  (parseWithStartPos_placeholder_ignores_start [116, 114, 117, 101] "c8.json" ⟨10, 3, 5⟩
    (by decide)).1

/-- C9: the "Root value must be object" diagnostic's subject range is the
start range of the original offending root node — a location in the
actually-parsed document — not a range of the placeholder object that
replaces it. -/
theorem parseWithStartPos_root_error_subject (src : List Nat) (filename : String)
    (start : Pos) (h : rootIsObjectOrArray (parseFileContent src filename start).1 = false) :
    (ParseWithStartPos src filename start).2 =
      (parseFileContent src filename start).2 ++
        [rootErrorDiag (parseFileContent src filename start).1] ∧
    (rootErrorDiag (parseFileContent src filename start).1).Subject =
      some (parseFileContent src filename start).1.StartRange := by
  refine ⟨?_, rfl⟩
  simp [ParseWithStartPos, h]

/-- Witness for C9: for the root value `"hello"` the appended diagnostic's
subject is the string's own range (bytes 0–7), not the placeholder's
zero-length synthetic range. -/
theorem parseWithStartPos_root_error_subject_witness :
    (ParseWithStartPos [34, 104, 101, 108, 108, 111, 34] "c9.json" ⟨0, 1, 1⟩).2 =
      (parseFileContent [34, 104, 101, 108, 108, 111, 34] "c9.json" ⟨0, 1, 1⟩).2 ++
        [rootErrorDiag (parseFileContent [34, 104, 101, 108, 108, 111, 34] "c9.json" ⟨0, 1, 1⟩).1] :=
  (parseWithStartPos_root_error_subject [34, 104, 101, 108, 108, 111, 34] "c9.json" ⟨0, 1, 1⟩
    (by decide)).1

/-- C5: if opening the file fails, `ParseFile` returns a nil file result
together with exactly one diagnostic — an error with no subject range and
no context range — and parsing is not attempted (the result is fixed by
the open failure alone, independent of the read and close outcomes). -/
theorem parseFile_open_failure (fs : osFile) (filename : String)
    (h : fs.openFails = true) :
    ParseFile fs filename = (none, [openErrorDiag filename]) ∧
    (openErrorDiag filename).Severity = .DiagError ∧
    (openErrorDiag filename).Subject = none ∧
    (openErrorDiag filename).Context = none := by
  refine ⟨?_, rfl, rfl, rfl⟩
  simp [ParseFile, h]

/-- Witness for C5: an environment whose open fails (even with readable
content and a failing close) yields exactly the positionless open-failure
error. -/
theorem parseFile_open_failure_witness :
    ParseFile { openFails := true, readResult := some [123, 125], closeFails := true }
        "c5.json" =
      (none, [openErrorDiag "c5.json"]) :=
  (parseFile_open_failure
    { openFails := true, readResult := some [123, 125], closeFails := true }
    "c5.json" rfl).1

/-- C6: if the file opens but reading fails, `ParseFile` returns a nil
file result whose diagnostics start with the error summarized "Failed to
read file" (followed only by the deferred close handler's output), and
open and read failures are the only conditions under which `ParseFile`
returns no usable file result: whenever the open and read succeed, the
file produced by `Parse` is returned. -/
theorem parseFile_read_failure (fs : osFile) (filename : String)
    (h : fs.openFails = false) :
    (fs.readResult = none →
      ParseFile fs filename =
        (none, readErrorDiag filename ::
          (if fs.closeFails then [closeWarningDiag filename] else [])) ∧
      (readErrorDiag filename).Severity = .DiagError ∧
      (readErrorDiag filename).Summary = "Failed to read file") ∧
    (∀ src : List Nat, fs.readResult = some src →
      (ParseFile fs filename).1 = some (Parse src filename).1) := by
  constructor
  · intro hr
    refine ⟨?_, rfl, rfl⟩
    simp [ParseFile, h, hr]
  · intro src hr
    simp [ParseFile, h, hr]

/-- Witness for C6: a failed read yields a nil file with the read error
(here the close succeeds, so no warning follows), and a successful read
yields the file produced by `Parse`. -/
theorem parseFile_read_failure_witness :
    ParseFile { openFails := false, readResult := none, closeFails := false } "c6.json" =
      (none, readErrorDiag "c6.json" ::
        (if ({ openFails := false, readResult := none, closeFails := false } : osFile).closeFails
          then [closeWarningDiag "c6.json"] else [])) ∧
    (ParseFile { openFails := false, readResult := some [123, 125], closeFails := false }
        "c6.json").1 =
      some (Parse [123, 125] "c6.json").1 :=
  ⟨((parseFile_read_failure
      { openFails := false, readResult := none, closeFails := false } "c6.json" rfl).1
      rfl).1,
    (parseFile_read_failure
      { openFails := false, readResult := some [123, 125], closeFails := false } "c6.json"
      rfl).2 [123, 125] rfl⟩

/-- C7: if the file is opened and read successfully but closing it fails,
`ParseFile` appends a diagnostic of warning severity (not error)
summarized "Failed to close file" after the diagnostics of `Parse`, and
still returns the `File` produced by delegating the read bytes to
`Parse`. -/
theorem parseFile_close_failure (fs : osFile) (filename : String) (src : List Nat)
    (ho : fs.openFails = false) (hr : fs.readResult = some src)
    (hc : fs.closeFails = true) :
    ParseFile fs filename =
      (some (Parse src filename).1, (Parse src filename).2 ++ [closeWarningDiag filename]) ∧
    (closeWarningDiag filename).Severity = .DiagWarning ∧
    (closeWarningDiag filename).Summary = "Failed to close file" := by
  refine ⟨?_, rfl, rfl⟩
  simp [ParseFile, ho, hr, hc]

/-- Witness for C7: reading `{}` with a failing close still returns the
parsed file, with the close warning appended to the parse diagnostics. -/
theorem parseFile_close_failure_witness :
    ParseFile { openFails := false, readResult := some [123, 125], closeFails := true }
        "c7.json" =
      (some (Parse [123, 125] "c7.json").1,
        (Parse [123, 125] "c7.json").2 ++ [closeWarningDiag "c7.json"]) :=
  (parseFile_close_failure
    { openFails := false, readResult := some [123, 125], closeFails := true }
    "c7.json" [123, 125] rfl rfl rfl).1

/-- C10: if reading fails after a successful open and closing then also
fails, the returned diagnostics contain both the "Failed to read file"
error and the "Failed to close file" warning, in that order, with a nil
file result: the deferred close handler appends its warning to the named
return value even on the read-failure path. -/
theorem parseFile_read_then_close_failure (fs : osFile) (filename : String)
    (ho : fs.openFails = false) (hr : fs.readResult = none)
    (hc : fs.closeFails = true) :
    ParseFile fs filename =
      (none, [readErrorDiag filename, closeWarningDiag filename]) ∧
    (readErrorDiag filename).Severity = .DiagError ∧
    (closeWarningDiag filename).Severity = .DiagWarning := by
  refine ⟨?_, rfl, rfl⟩
  simp [ParseFile, ho, hr, hc]

/-- Witness for C10: an environment where the read and the close both fail
reports the read error followed by the close warning. -/
theorem parseFile_read_then_close_failure_witness :
    ParseFile { openFails := false, readResult := none, closeFails := true } "c10.json" =
      (none, [readErrorDiag "c10.json", closeWarningDiag "c10.json"]) :=
  (parseFile_read_then_close_failure
    { openFails := false, readResult := none, closeFails := true } "c10.json"
    rfl rfl rfl).1

end HclJson
